import Mathlib

/-!
Verification of the multi-window statistical aggregation engine of the
double-ball analyzer: data model, frequency aggregation, heat (hot/warm/cold)
classification, repeat-probability statistics, window policy and the TTL cache,
shallowly embedded from the Python sources
(analysis/hot_cold_analyzer.py, analysis/probability_analyzer.py,
utils/window_config.py, data/database.py, services/analysis_service.py).
-/

namespace DoubleBall

/-- One historical draw record (data/models.py, DoubleBallRecord): the fields
used by the statistical core.  The issue id is numerically ordered; the
storage layer returns records ordered by issue descending (newest first). -/
structure DoubleBallRecord where
  issue : Nat
  red1 : Nat
  red2 : Nat
  red3 : Nat
  red4 : Nat
  red5 : Nat
  red6 : Nat
  blue : Nat
deriving DecidableEq

/-- The six main (red) numbers of a record, in field order
(hot_cold_analyzer.py lines 125-126). -/
def redsOf (r : DoubleBallRecord) : List Nat :=
  [r.red1, r.red2, r.red3, r.red4, r.red5, r.red6]

/-- The full main-number range 1..33 (the loop for ball in range(1, 34)). -/
def ballRange : List Nat := List.range' 1 33

/-- A record is valid when all its main numbers lie in 1..33 (data-model
invariant; invalid records are excluded from aggregation). -/
def ValidRecord (r : DoubleBallRecord) : Prop :=
  ∀ x ∈ redsOf r, x ∈ ballRange

/-- Occurrence count of a main number over a window of records
(hot_cold_analyzer.py lines 122-128: Counter over all reds). -/
def redCount (records : List DoubleBallRecord) (ball : Nat) : Nat :=
  (records.flatMap redsOf).count ball

/-- The zero-filled frequency table: one (ball, count) entry for every ball in
1..33 (hot_cold_analyzer.py lines 130-133: the Counter after the fill loop,
whose key set is exactly 1..33 for valid records). -/
def freqTable (records : List DoubleBallRecord) : List (Nat × Nat) :=
  ballRange.map (fun b => (b, redCount records b))

/-- The sort key of hot_cold_analyzer.py line 137, key = (-count, ball),
expressed as a total order on (ball, count) items: descending count, ties
broken by ascending ball. -/
def itemLE (a b : Nat × Nat) : Prop :=
  b.2 < a.2 ∨ (a.2 = b.2 ∧ a.1 ≤ b.1)

instance : DecidableRel itemLE := fun a b =>
  inferInstanceAs (Decidable (b.2 < a.2 ∨ (a.2 = b.2 ∧ a.1 ≤ b.1)))

instance : IsTotal (Nat × Nat) itemLE :=
  ⟨by intro a b; unfold itemLE; omega⟩

instance : IsTrans (Nat × Nat) itemLE :=
  ⟨by intro a b c; unfold itemLE; omega⟩

/-- The ranked items: frequency-table entries sorted by (descending count,
ascending ball) (hot_cold_analyzer.py lines 136-137).  The Python sort is by
an injective total key (distinct balls), so any correct sort yields the same
list. -/
def sortedItems (records : List DoubleBallRecord) : List (Nat × Nat) :=
  (freqTable records).insertionSort itemLE

/-- hot = sorted_items[:11] (hot_cold_analyzer.py line 140). -/
def hotList (records : List DoubleBallRecord) : List Nat :=
  ((sortedItems records).take 11).map Prod.fst

/-- warm = sorted_items[11:22] (hot_cold_analyzer.py line 141). -/
def warmList (records : List DoubleBallRecord) : List Nat :=
  (((sortedItems records).drop 11).take 11).map Prod.fst

/-- cold = sorted_items[22:33] (hot_cold_analyzer.py line 142). -/
def coldList (records : List DoubleBallRecord) : List Nat :=
  (((sortedItems records).drop 22).take 11).map Prod.fst

/-- The fields of the result dict of HotColdAnalyzer.analyze that carry the
classification (hot_cold_analyzer.py lines 153-162; the timestamp field is
time-dependent presentation data and is not part of the embedded state). -/
structure AnalyzeResult where
  hot : List Nat
  warm : List Nat
  cold : List Nat
  total_records : Nat
  red_counts : List (Nat × Nat)
deriving DecidableEq

/-- The empty result returned when no records are available
(hot_cold_analyzer.py lines 663-674): all tiers empty, zero records, and an
empty red_counts dict. -/
def emptyResult : AnalyzeResult :=
  { hot := [], warm := [], cold := [], total_records := 0, red_counts := [] }

/-- HotColdAnalyzer.analyze without the cache (hot_cold_analyzer.py
lines 116-162): empty input short-circuits to the empty result, otherwise the
classification is computed from the sorted frequency table. -/
def analyze (records : List DoubleBallRecord) : AnalyzeResult :=
  if records.isEmpty then emptyResult
  else
    { hot := hotList records
      warm := warmList records
      cold := coldList records
      total_records := records.length
      red_counts := freqTable records }

/-! ### Window policy (utils/window_config.py) -/

/-- WindowConfigManager's standard window table (utils/window_config.py
lines 16-21): short 30, medium 50, long 100, all-history unbounded. -/
def windowConfigTable : List (String × Option Nat) :=
  [("short_term", some 30), ("medium_term", some 50),
   ("long_term", some 100), ("all_history", none)]

/-- WindowConfigManager.get_window_by_name (utils/window_config.py
lines 40-43): dict .get, returning None both for the all-history sentinel and
for an unknown name. -/
def getWindowByName (name : String) : Option Nat :=
  match windowConfigTable.lookup name with
  | some v => v
  | none => none

/-- ProbabilityAnalyzer._get_window_config (analysis/probability_analyzer.py
lines 26-37): each entry is built by a get_window_by_name call; the source
passes the literal name. -/
def probabilityWindowConfig : List (String × Option Nat) :=
  [("short_term", getWindowByName "short_term"),
   ("medium_term", getWindowByName "short_term"),
   ("long_term", getWindowByName "short_term"),
   ("all_history", none)]

/-! ### Repeat-probability analyzer (analysis/probability_analyzer.py) -/

/-- Python negative slicing l[-e:]: the whole list when e = 0, otherwise the
last e elements. -/
def tailSlice (l : List DoubleBallRecord) (e : Nat) : List DoubleBallRecord :=
  if e = 0 then l else l.drop (l.length - e)

/-- The window slice of ProbabilityAnalyzer._analyze_single_window
(probability_analyzer.py lines 107-118): all records for the all-history
sentinel, else all_records[-min(limit, total):].  all_records comes from
DoubleBallDatabase.get_all_records, which orders by issue descending (newest
first, database.py line 345). -/
def periodData (limit : Option Nat) (allRecords : List DoubleBallRecord) :
    List DoubleBallRecord :=
  match limit with
  | none => allRecords
  | some n => tailSlice allRecords (min n allRecords.length)

/-- Modelled from the spec: the storage collaborator returns draws newest
first, so the N most-recent draws of the history are the first N elements.
Spec-side definition, for comparison with periodData. -/
def mostRecent (n : Nat) (newestFirst : List DoubleBallRecord) :
    List DoubleBallRecord :=
  newestFirst.take n

/-- Per adjacent pair (draws i, i+1), the size of the set intersection of
their main numbers (probability_analyzer.py lines 151-163). -/
def repeatCounts (pd : List DoubleBallRecord) : List Nat :=
  (pd.zip pd.tail).map
    (fun p => ((redsOf p.1).dedup.filter (fun x => (redsOf p.2).contains x)).length)

/-- The output fields of _calculate_window_repeat_stats that carry the
statistics (probability_analyzer.py lines 189-206). -/
structure RepeatStats where
  total_pairs : Nat
  repeat_distribution : List (Nat × ℚ)
  blue_repeat_probability : ℚ
deriving DecidableEq

/-- ProbabilityAnalyzer._calculate_window_repeat_stats
(probability_analyzer.py lines 144-206): bucket c of the distribution is the
number of adjacent pairs sharing exactly c main numbers divided by
total_pairs = len(period_data) - 1; the distribution dict stays empty when
total_pairs = 0. -/
def windowRepeatStats (pd : List DoubleBallRecord) : RepeatStats :=
  let rc := repeatCounts pd
  let totalPairs := pd.length - 1
  { total_pairs := totalPairs
    repeat_distribution :=
      if 0 < totalPairs then
        (List.range 7).map (fun c => (c, (rc.count c : ℚ) / (totalPairs : ℚ)))
      else []
    blue_repeat_probability :=
      if 0 < totalPairs then
        (((pd.zip pd.tail).countP (fun p => p.1.blue == p.2.blue) : ℚ) / (totalPairs : ℚ))
      else 0 }

/-- ProbabilityAnalyzer._analyze_single_window (probability_analyzer.py
lines 99-128): slice the window, skip it (None) when fewer than 2 records
remain, otherwise compute the repeat statistics. -/
def analyzeSingleWindow (limit : Option Nat) (allRecords : List DoubleBallRecord) :
    Option RepeatStats :=
  let pd := periodData limit allRecords
  if pd.length < 2 then none
  else some (windowRepeatStats pd)

/-- The per-window loop of analyze_current_period_probability
(probability_analyzer.py lines 78-89): unknown window names are skipped, and a
window whose analysis returns None is omitted while the remaining windows are
still analyzed. -/
def analyzeWindows (cfg : List (String × Option Nat)) (group : List String)
    (allRecords : List DoubleBallRecord) : List (String × RepeatStats) :=
  group.filterMap (fun name =>
    match cfg.lookup name with
    | none => none
    | some limit => (analyzeSingleWindow limit allRecords).map (fun r => (name, r)))

/-! ### TTL cache of HotColdAnalyzer.analyze (hot_cold_analyzer.py) -/

/-- The cache TTL in seconds (hot_cold_analyzer.py line 29). -/
def cacheTTL : Nat := 300

/-- One cached analyze result with its _cache_time stamp. -/
structure CacheEntry where
  result : AnalyzeResult
  cacheTime : Nat
deriving DecidableEq

/-- The analyzer's _cached_results dict, keyed by window size (the cache key
string window_N depends only on the window number). -/
abbrev CacheState := List (Nat × CacheEntry)

/-- HotColdAnalyzer.analyze with its cache (hot_cold_analyzer.py
lines 103-165), with explicit state and clock: a non-expired entry for the
same window is returned as is (the records argument is ignored); otherwise the
result is computed from the records and stored (the empty-input result is
returned without being stored, line 118). -/
def analyzeCached (st : CacheState) (now : Nat) (records : List DoubleBallRecord)
    (window : Nat) (forceRefresh : Bool) : AnalyzeResult × CacheState :=
  let cachedFresh : Option AnalyzeResult :=
    if forceRefresh then none
    else
      match st.lookup window with
      | some entry =>
          if now - entry.cacheTime < cacheTTL then some entry.result else none
      | none => none
  match cachedFresh with
  | some res => (res, st)
  | none =>
      if records.isEmpty then (emptyResult, st)
      else
        let res := analyze records
        (res, (window, { result := res, cacheTime := now }) :: st)

/-! ### Per-ball trend classifier (hot_cold_analyzer.py lines 474-506) -/

/-- all(p[i] <= p[i+1]) over adjacent elements. -/
def isNonDecreasing : List ℚ → Bool
  | [] => true
  | [_] => true
  | a :: b :: rest => decide (a ≤ b) && isNonDecreasing (b :: rest)

/-- all(p[i] >= p[i+1]) over adjacent elements. -/
def isNonIncreasing : List ℚ → Bool
  | [] => true
  | [_] => true
  | a :: b :: rest => decide (b ≤ a) && isNonIncreasing (b :: rest)

/-- Python max over a non-empty list (0 for the empty list, unreachable in the
guarded branches). -/
def listMax : List ℚ → ℚ
  | [] => 0
  | x :: xs => xs.foldl max x

/-- Python min over a non-empty list. -/
def listMin : List ℚ → ℚ
  | [] => 0
  | x :: xs => xs.foldl min x

/-- percentages[0] (0 for the empty list, unreachable in the guarded
branches). -/
def listHead : List ℚ → ℚ
  | [] => 0
  | x :: _ => x

/-- percentages[-1]. -/
def listLast : List ℚ → ℚ
  | [] => 0
  | [x] => x
  | _ :: x :: xs => listLast (x :: xs)

/-- HotColdAnalyzer._determine_ball_trend (hot_cold_analyzer.py
lines 474-506), with percentages as exact rationals: fewer than 2 windows
gives the insufficient-data marker; 4 or more windows use the monotone
classification with the 5% materiality and 3% stable thresholds; 2 or 3
windows compare only the endpoints against the 5% threshold. -/
def determineBallTrend (ps : List ℚ) : String :=
  if ps.length < 2 then "数据不足"
  else if 4 ≤ ps.length then
    let maxDiff := listMax ps - listMin ps
    if isNonDecreasing ps ∧ maxDiff > 5 / 100 then "递增"
    else if isNonIncreasing ps ∧ maxDiff > 5 / 100 then "递减"
    else if maxDiff ≤ 3 / 100 then "稳定"
    else "波动"
  else
    if listHead ps < listLast ps ∧ listLast ps - listHead ps > 5 / 100 then "上升"
    else if listHead ps > listLast ps ∧ listHead ps - listLast ps > 5 / 100 then "下降"
    else "稳定"

/-- Modelled from the spec: the claimed trend classification — increasing
exactly when the sequence is non-decreasing and max − min exceeds the 5%
materiality threshold, decreasing symmetrically, stable when
max − min ≤ 3%, oscillating otherwise.  Spec-side definition, for comparison
with determineBallTrend. -/
def specTrend (ps : List ℚ) : String :=
  let maxDiff := listMax ps - listMin ps
  if isNonDecreasing ps ∧ maxDiff > 5 / 100 then "递增"
  else if isNonIncreasing ps ∧ maxDiff > 5 / 100 then "递减"
  else if maxDiff ≤ 3 / 100 then "稳定"
  else "波动"

/-! ### Cross-window consistency (hot_cold_analyzer.py lines 236-291) -/

/-- A heat tier. -/
inductive Heat
  | hot
  | warm
  | cold
deriving DecidableEq

/-- One window's classification as consumed by the consistency analysis
(the hot/warm/cold lists of its analyze result). -/
structure WindowCls where
  hot : List Nat
  warm : List Nat
  cold : List Nat
deriving DecidableEq

/-- The tier assigned to a ball in one window (hot_cold_analyzer.py
lines 260-266): hot if the ball is in the hot set, else warm if in the warm
set, else cold — a ball absent from both is counted cold. -/
def statusIn (w : WindowCls) (ball : Nat) : Heat :=
  if ball ∈ w.hot then Heat.hot
  else if ball ∈ w.warm then Heat.warm
  else Heat.cold

/-- The ball's tier sequence across the analyzed windows. -/
def statusesOf (ws : List WindowCls) (ball : Nat) : List Heat :=
  ws.map (fun w => statusIn w ball)

/-- len(set(statuses)) == 1 (hot_cold_analyzer.py line 271). -/
def allSameStatus (l : List Heat) : Bool :=
  l.dedup.length == 1

/-- statuses[0] (0-default unreachable under allSameStatus). -/
def headHeat : List Heat → Heat
  | [] => Heat.cold
  | x :: _ => x

/-- The verdict groups of the consistency result (varying keeps the ball ids
of the varying entries; their status/trend payload is presentation data). -/
structure Consistency where
  consistent_hot : List Nat
  consistent_warm : List Nat
  consistent_cold : List Nat
  varying : List Nat
deriving DecidableEq

/-- HotColdAnalyzer._analyze_cross_window_consistency (hot_cold_analyzer.py
lines 236-291): with fewer than 2 windows only a message is returned (None
here); otherwise every ball 1..33 is routed to consistently-hot/warm/cold when
its tier is the same in every window (per its first status) and to varying
otherwise.  The source iterates balls in ascending order and sorts the
consistent lists, so each group is an ascending filter of 1..33. -/
def crossWindowConsistency (ws : List WindowCls) : Option Consistency :=
  if ws.length < 2 then none
  else some
    { consistent_hot := ballRange.filter
        (fun b => allSameStatus (statusesOf ws b)
          && (headHeat (statusesOf ws b) == Heat.hot))
      consistent_warm := ballRange.filter
        (fun b => allSameStatus (statusesOf ws b)
          && (headHeat (statusesOf ws b) == Heat.warm))
      consistent_cold := ballRange.filter
        (fun b => allSameStatus (statusesOf ws b)
          && (headHeat (statusesOf ws b) == Heat.cold))
      varying := ballRange.filter
        (fun b => !allSameStatus (statusesOf ws b)) }

/-! ### Concrete records used by witnesses and failing-input evaluations -/

/-- A concrete record: issue 3 (the newest of the example history). -/
def recNew : DoubleBallRecord :=
  { issue := 3, red1 := 1, red2 := 2, red3 := 3, red4 := 4, red5 := 5, red6 := 6, blue := 1 }

/-- A concrete record: issue 2. -/
def recMid : DoubleBallRecord :=
  { issue := 2, red1 := 7, red2 := 8, red3 := 9, red4 := 10, red5 := 11, red6 := 12, blue := 2 }

/-- A concrete record: issue 1 (the oldest of the example history). -/
def recOld : DoubleBallRecord :=
  { issue := 1, red1 := 13, red2 := 14, red3 := 15, red4 := 16, red5 := 17, red6 := 18, blue := 3 }

/-- A concrete record whose main numbers are 28..33, blue 1. -/
def recHigh : DoubleBallRecord :=
  { issue := 4, red1 := 28, red2 := 29, red3 := 30, red4 := 31, red5 := 32, red6 := 33, blue := 1 }

section Claims

/-- C1: the history [recNew, recMid, recOld] is ordered newest first (issues
3, 2, 1, the get_all_records order).  For a trailing window of size 2 the
code's slice all_records[-2:] selects the two OLDEST records (issues 2 and 1),
not the two most-recent ones (issues 3 and 2) that the spec's
most-recent-N window requires: the window slice and the spec's most-recent
selection disagree on this input. -/
theorem C1_window_slices_oldest :
    periodData (some 2) [recNew, recMid, recOld] = [recMid, recOld] ∧
    mostRecent 2 [recNew, recMid, recOld] = [recNew, recMid] ∧
    periodData (some 2) [recNew, recMid, recOld]
      ≠ mostRecent 2 [recNew, recMid, recOld] := by
  refine ⟨rfl, rfl, ?_⟩
  decide

/-- C2: ProbabilityAnalyzer._get_window_config resolves medium_term and
long_term through get_window_by_name with the name short_term, so both come
out as 30, although the shared window policy (WindowConfigManager) resolves
medium_term to 50 and long_term to 100: the analyzer's three finite windows
are 30/30/30, not the claimed 30/50/100. -/
theorem C2_window_config_collapses :
    probabilityWindowConfig.lookup "short_term" = some (some 30) ∧
    probabilityWindowConfig.lookup "medium_term" = some (some 30) ∧
    probabilityWindowConfig.lookup "long_term" = some (some 30) ∧
    getWindowByName "medium_term" = some 50 ∧
    getWindowByName "long_term" = some 100 := by
  refine ⟨rfl, rfl, rfl, rfl, rfl⟩

/-- C9: the analyze cache is keyed by the window number alone, so a second
call within the TTL that passes different records for the same window returns
the first call's cached classification instead of the one computed from its
own records: with a cold cache at time 0 on [recNew] and a warm cache at
time 1 on [recHigh] (same window 30, no force_refresh), the second call
returns analyze [recNew], which differs from analyze [recHigh] — cache
presence changes the computed result. -/
theorem C9_cache_changes_result :
    (analyzeCached (analyzeCached [] 0 [recNew] 30 false).2 1 [recHigh] 30 false).1
      = analyze [recNew] ∧
    (analyzeCached (analyzeCached [] 0 [recHigh] 30 false).2 1 [recHigh] 30 false).1
      = analyze [recHigh] ∧
    analyze [recNew] ≠ analyze [recHigh] := by
  refine ⟨by decide, by decide, by decide⟩

/-- The claim's completeness property of a frequency table: exactly one entry
for every main number 1..33. -/
def tableComplete (t : List (Nat × Nat)) : Prop :=
  ∀ b ∈ ballRange, t.countP (fun p => p.1 == b) = 1

instance (t : List (Nat × Nat)) : Decidable (tableComplete t) :=
  inferInstanceAs (Decidable (∀ b ∈ ballRange, t.countP (fun p => p.1 == b) = 1))

/-- C5 counterexample: on the empty input the analyzer returns the empty
result, whose red_counts table is the empty map — it does NOT contain one
zero entry per main number 1..33, contrary to the claim that the empty input
yields an all-zero (complete) table. -/
theorem C5_counterexample_empty_table :
    (analyze []).red_counts = [] ∧ ¬ tableComplete (analyze []).red_counts := by
  refine ⟨rfl, by decide⟩

/-- C7: a window whose sliced period data holds fewer than 2 records is
short-circuited: _analyze_single_window returns the explicit None marker
(no distribution is produced at all, silently-zero or otherwise, and the
pair-count division is never reached), and the per-window loop drops exactly
that window while analyzing the remaining windows unchanged. -/
theorem C7_insufficient_data_skips_window
    (limit : Option Nat) (allRecords : List DoubleBallRecord)
    (h : (periodData limit allRecords).length < 2)
    (cfg : List (String × Option Nat)) (name : String) (rest : List String)
    (hname : cfg.lookup name = some limit) :
    analyzeSingleWindow limit allRecords = none ∧
    analyzeWindows cfg (name :: rest) allRecords
      = analyzeWindows cfg rest allRecords := by
  have h1 : analyzeSingleWindow limit allRecords = none := by
    unfold analyzeSingleWindow
    simp [h]
  refine ⟨h1, ?_⟩
  unfold analyzeWindows
  rw [List.filterMap_cons]
  simp [hname, h1]

/-- Witness for C7 at a concrete input: the configured short-term window (30)
over a one-record history has period data of length 1 < 2; the window is
skipped and the loop over [short_term, all_history] yields exactly the
all_history analysis (which is itself skipped here for the same reason,
leaving no analyzed windows). -/
theorem C7_witness :
    (periodData (some 30) [recNew]).length < 2 ∧
    probabilityWindowConfig.lookup "short_term" = some (some 30) ∧
    (analyzeSingleWindow (some 30) [recNew] = none ∧
      analyzeWindows probabilityWindowConfig ["short_term", "all_history"] [recNew]
        = analyzeWindows probabilityWindowConfig ["all_history"] [recNew]) :=
  ⟨by decide, by decide,
    C7_insufficient_data_skips_window (some 30) [recNew] (by decide)
      probabilityWindowConfig "short_term" ["all_history"] (by decide)⟩

end Claims

/-! ### Helper lemmas about the zero-filled frequency table -/

theorem ballRange_nodup : ballRange.Nodup := List.nodup_range' 1 33

theorem countP_key_map (f : Nat → Nat) (l : List Nat) (b : Nat) :
    (l.map (fun x => (x, f x))).countP (fun p => p.1 == b) = l.count b := by
  rw [List.countP_map]
  rfl

theorem count_ballRange_of_mem {b : Nat} (hb : b ∈ ballRange) :
    ballRange.count b = 1 :=
  List.count_eq_one_of_mem ballRange_nodup hb

theorem lookup_key_map (f : Nat → Nat) :
    ∀ (l : List Nat) (b : Nat), b ∈ l →
      (l.map (fun x => (x, f x))).lookup b = some (f b)
  | [], _, h => by cases h
  | x :: xs, b, h => by
    by_cases hb : b = x
    · subst hb
      simp [List.lookup]
    · have hxs : b ∈ xs := by
        cases h with
        | head => exact absurd rfl hb
        | tail _ h2 => exact h2
      have hne : (b == x) = false := by
        simp [hb]
      simp [List.lookup, hne, lookup_key_map f xs b hxs]

theorem analyze_of_ne_nil {records : List DoubleBallRecord} (h : records ≠ []) :
    analyze records =
      { hot := hotList records
        warm := warmList records
        cold := coldList records
        total_records := records.length
        red_counts := freqTable records } := by
  have hfalse : records.isEmpty = false := by
    cases records with
    | nil => exact absurd rfl h
    | cons a l => rfl
  unfold analyze
  rw [hfalse]
  rfl

section Claims2

/-- C5 (amended): for every non-empty input the frequency aggregation returns
a zero-filled table with exactly one entry per main number 1..33 (the entry
carrying that ball's occurrence count) and the sample size; the empty input is
a valid result, not an error, with sample size 0, but its red_counts map is
empty rather than a 33-entry all-zero table. -/
theorem C5_table_zero_filled (records : List DoubleBallRecord)
    (h : records ≠ []) :
    tableComplete (analyze records).red_counts ∧
    (∀ b ∈ ballRange,
      (analyze records).red_counts.lookup b = some (redCount records b)) ∧
    (analyze records).total_records = records.length ∧
    ((analyze []).total_records = 0 ∧ (analyze []).red_counts = []) := by
  rw [analyze_of_ne_nil h]
  refine ⟨?_, ?_, rfl, rfl, rfl⟩
  · intro b hb
    show (freqTable records).countP (fun p => p.1 == b) = 1
    rw [freqTable, countP_key_map]
    exact count_ballRange_of_mem hb
  · intro b hb
    exact lookup_key_map (redCount records) ballRange b hb

/-- Witness for C5 at a concrete input: the single-record history [recNew] is
non-empty, its table is complete with ball 7 counted zero and ball 1 counted
once, and the empty input yields the valid empty result. -/
theorem C5_witness :
    [recNew] ≠ ([] : List DoubleBallRecord) ∧
    (tableComplete (analyze [recNew]).red_counts ∧
      (∀ b ∈ ballRange,
        (analyze [recNew]).red_counts.lookup b = some (redCount [recNew] b)) ∧
      (analyze [recNew]).total_records = [recNew].length ∧
      ((analyze []).total_records = 0 ∧ (analyze []).red_counts = [])) :=
  ⟨by decide, C5_table_zero_filled [recNew] (by decide)⟩

end Claims2

/-! ### Helper lemmas about the ranked items -/

theorem sortedItems_perm (records : List DoubleBallRecord) :
    (sortedItems records).Perm (freqTable records) :=
  List.perm_insertionSort itemLE (freqTable records)

theorem map_fst_freqTable (records : List DoubleBallRecord) :
    (freqTable records).map Prod.fst = ballRange := by
  rw [freqTable, List.map_map]
  have hcomp : (Prod.fst ∘ fun b : Nat => (b, redCount records b)) = id := rfl
  rw [hcomp, List.map_id]

theorem sortedItems_length (records : List DoubleBallRecord) :
    (sortedItems records).length = 33 := by
  rw [(sortedItems_perm records).length_eq, freqTable, List.length_map,
    ballRange, List.length_range']

theorem map_fst_sortedItems_perm (records : List DoubleBallRecord) :
    ((sortedItems records).map Prod.fst).Perm ballRange := by
  have h := (sortedItems_perm records).map Prod.fst
  rwa [map_fst_freqTable] at h

theorem hot_warm_cold_concat (records : List DoubleBallRecord) :
    hotList records ++ warmList records ++ coldList records
      = (sortedItems records).map Prod.fst := by
  have hlen : (sortedItems records).length = 33 := sortedItems_length records
  rw [hotList, warmList, coldList, ← List.map_append, ← List.map_append]
  refine congrArg (List.map Prod.fst) ?_
  have e1 : (sortedItems records).take 22
      = (sortedItems records).take 11 ++ ((sortedItems records).drop 11).take 11 :=
    List.take_add (sortedItems records) 11 11
  have e2 : (sortedItems records).take 33
      = (sortedItems records).take 22 ++ ((sortedItems records).drop 22).take 11 :=
    List.take_add (sortedItems records) 22 11
  have e3 : (sortedItems records).take 33 = sortedItems records := by
    rw [← hlen]
    exact List.take_length _
  rw [← e1, ← e2, e3]

theorem sortedItems_pairwise (records : List DoubleBallRecord) :
    (sortedItems records).Pairwise itemLE :=
  List.sorted_insertionSort itemLE (freqTable records)

section Claims3

/-- C3: for every non-empty window of draw records, the hot, warm and cold
lists of the classification concatenate to a permutation of the full main
number range 1..33 (so the three tiers partition the range with no overlaps
and no omissions), with exactly 11 numbers in each tier. -/
theorem C3_tiers_partition_range (records : List DoubleBallRecord)
    (h : records ≠ []) :
    ((analyze records).hot ++ (analyze records).warm
        ++ (analyze records).cold).Perm ballRange ∧
    (analyze records).hot.length = 11 ∧
    (analyze records).warm.length = 11 ∧
    (analyze records).cold.length = 11 := by
  rw [analyze_of_ne_nil h]
  have hlen : (sortedItems records).length = 33 := sortedItems_length records
  refine ⟨?_, ?_, ?_, ?_⟩
  · rw [hot_warm_cold_concat records]
    exact map_fst_sortedItems_perm records
  · simp only [hotList, List.length_map, List.length_take, hlen]
    omega
  · simp only [warmList, List.length_map, List.length_take, List.length_drop, hlen]
    omega
  · simp only [coldList, List.length_map, List.length_take, List.length_drop, hlen]
    omega

/-- Witness for C3 at a concrete input: the one-record history [recNew] is
non-empty and its classification partitions 1..33 into tiers of 11. -/
theorem C3_witness :
    [recNew] ≠ ([] : List DoubleBallRecord) ∧
    (((analyze [recNew]).hot ++ (analyze [recNew]).warm
        ++ (analyze [recNew]).cold).Perm ballRange ∧
      (analyze [recNew]).hot.length = 11 ∧
      (analyze [recNew]).warm.length = 11 ∧
      (analyze [recNew]).cold.length = 11) :=
  ⟨by decide, C3_tiers_partition_range [recNew] (by decide)⟩

/-- C4: the ranking is deterministic on ties — whenever two entries of the
ranked item list carry the same occurrence count, the entry appearing earlier
has the strictly smaller ball number (with equal counts 5 ranks before 7). -/
theorem C4_equal_counts_ascending (records : List DoubleBallRecord)
    (i j a b c : Nat) (hij : i < j)
    (ha : (sortedItems records)[i]? = some (a, c))
    (hb : (sortedItems records)[j]? = some (b, c)) :
    a < b := by
  obtain ⟨hi, ha2⟩ := List.getElem?_eq_some_iff.mp ha
  obtain ⟨hj, hb2⟩ := List.getElem?_eq_some_iff.mp hb
  have hpw := sortedItems_pairwise records
  have hle : itemLE (a, c) (b, c) := by
    have := (List.pairwise_iff_getElem.mp hpw) i j hi hj hij
    rwa [ha2, hb2] at this
  have hab : a ≤ b := by
    rcases hle with h1 | ⟨_, h2⟩
    · exact absurd h1 (lt_irrefl c)
    · exact h2
  have hnodup : ((sortedItems records).map Prod.fst).Nodup :=
    (map_fst_sortedItems_perm records).nodup_iff.mpr ballRange_nodup
  have hne : a ≠ b := by
    intro hcontra
    have hi2 : i < ((sortedItems records).map Prod.fst).length := by
      simpa using hi
    have hj2 : j < ((sortedItems records).map Prod.fst).length := by
      simpa using hj
    have : ((sortedItems records).map Prod.fst)[i] =
        ((sortedItems records).map Prod.fst)[j] := by
      simp only [List.getElem_map]
      rw [ha2, hb2, hcontra]
    have := (hnodup.getElem_inj_iff).mp this
    omega
  omega

/-- Witness for C4 at a concrete input: over the empty history all counts are
zero, the first two ranked entries are (1, 0) and (2, 0) — equal counts — and
indeed 1 < 2. -/
theorem C4_witness :
    (0 : Nat) < 1 ∧
    (sortedItems [])[0]? = some (1, 0) ∧
    (sortedItems [])[1]? = some (2, 0) ∧
    1 < 2 :=
  ⟨by decide, by decide, by decide,
    C4_equal_counts_ascending [] 0 1 1 2 0 (by decide) (by decide) (by decide)⟩

end Claims3

section Claims4

/-- C8 counterexample: on the two-window percentage sequence [0, 4%] the
claimed rule (single inequality set at 5% materiality / 3% stable cutoff)
classifies oscillating — the sequence is non-decreasing with max − min = 4%,
which neither exceeds 5% nor is ≤ 3% — but the code classifies it stable,
because sequences of fewer than 4 windows take the endpoint-comparison branch
instead of the claimed rule. -/
theorem C8_counterexample_short_sequence :
    determineBallTrend [0, 4 / 100] = "稳定" ∧
    specTrend [0, 4 / 100] = "波动" ∧
    determineBallTrend [0, 4 / 100] ≠ specTrend [0, 4 / 100] := by
  have h1 : determineBallTrend [0, 4 / 100] = "稳定" := by
    norm_num [determineBallTrend, listHead, listLast]
  have h2 : specTrend [0, 4 / 100] = "波动" := by
    norm_num [specTrend, listMax, listMin, isNonDecreasing, isNonIncreasing]
  refine ⟨h1, h2, ?_⟩
  rw [h1, h2]
  decide

/-- C8 (amended): for percentage sequences covering at least 4 windows (the
full short → medium → long → all-history sequence), the classifier follows
exactly the claimed rule: increasing iff non-decreasing with max − min > 5%,
decreasing symmetrically, stable iff max − min ≤ 3%, oscillating otherwise,
with strict inequalities at the materiality threshold and non-strict at the
stable cutoff; sequences of 2 or 3 windows instead compare only the endpoints
against the 5% threshold and never classify as oscillating. -/
theorem C8_trend_rule_for_full_sequences (ps : List ℚ) (h : 4 ≤ ps.length) :
    determineBallTrend ps = specTrend ps := by
  have h2 : ¬ ps.length < 2 := by omega
  unfold determineBallTrend specTrend
  rw [if_neg h2, if_pos h]

/-- Witness for C8 at a concrete input: the four-window sequence
[0, 1%, 2%, 10%] is non-decreasing with spread 10% > 5%, and both the code and
the claimed rule classify it increasing. -/
theorem C8_witness :
    4 ≤ ([0, 1 / 100, 2 / 100, 10 / 100] : List ℚ).length ∧
    determineBallTrend [0, 1 / 100, 2 / 100, 10 / 100]
      = specTrend [0, 1 / 100, 2 / 100, 10 / 100] :=
  ⟨by norm_num, C8_trend_rule_for_full_sequences [0, 1 / 100, 2 / 100, 10 / 100] (by norm_num)⟩

end Claims4

/-! ### Helper lemmas for the repeat distribution -/

theorem repeatCounts_lt_seven (pd : List DoubleBallRecord) :
    ∀ x ∈ repeatCounts pd, x < 7 := by
  intro x hx
  rw [repeatCounts] at hx
  obtain ⟨p, _, hx2⟩ := List.mem_map.mp hx
  have h1 : ((redsOf p.1).dedup.filter
      (fun y => (redsOf p.2).contains y)).length ≤ (redsOf p.1).dedup.length :=
    List.length_filter_le _ _
  have h2 : (redsOf p.1).dedup.length ≤ (redsOf p.1).length :=
    (List.dedup_sublist (redsOf p.1)).length_le
  have h3 : (redsOf p.1).length = 6 := rfl
  omega

theorem count_sum_of_lt_seven : ∀ (l : List Nat), (∀ x ∈ l, x < 7) →
    l.count 0 + l.count 1 + l.count 2 + l.count 3
      + l.count 4 + l.count 5 + l.count 6 = l.length
  | [] => by intro _; simp
  | a :: t => by
    intro h
    have ha : a < 7 := h a (by simp)
    have iht := count_sum_of_lt_seven t (fun x hx => h x (by simp [hx]))
    simp only [List.count_cons, List.length_cons]
    interval_cases a <;> simp <;> omega

theorem repeatCounts_length (pd : List DoubleBallRecord) :
    (repeatCounts pd).length = pd.length - 1 := by
  rw [repeatCounts, List.length_map, List.length_zip, List.length_tail]
  omega

section Claims5

/-- C6: for every window holding at least 2 draws, the repeat distribution
assigns to each bucket c in 0..6 the probability (number of adjacent pairs
sharing exactly c main numbers) / (pair count = window size − 1), and the
seven probabilities sum to exactly 1 as rationals. -/
theorem C6_distribution_sums_to_one (pd : List DoubleBallRecord)
    (h : 2 ≤ pd.length) :
    (windowRepeatStats pd).repeat_distribution
      = (List.range 7).map (fun c =>
          (c, ((repeatCounts pd).count c : ℚ) / ((pd.length - 1 : Nat) : ℚ))) ∧
    ((windowRepeatStats pd).repeat_distribution.map Prod.snd).sum = 1 := by
  have hp : 0 < pd.length - 1 := by omega
  have hdist : (windowRepeatStats pd).repeat_distribution
      = (List.range 7).map (fun c =>
          (c, ((repeatCounts pd).count c : ℚ) / ((pd.length - 1 : Nat) : ℚ))) := by
    simp only [windowRepeatStats, if_pos hp]
  refine ⟨hdist, ?_⟩
  rw [hdist]
  have hrange : List.range 7 = [0, 1, 2, 3, 4, 5, 6] := rfl
  have hd : ((pd.length - 1 : Nat) : ℚ) ≠ 0 := by
    exact_mod_cast Nat.pos_iff_ne_zero.mp hp
  have hsum : (repeatCounts pd).count 0 + (repeatCounts pd).count 1
      + (repeatCounts pd).count 2 + (repeatCounts pd).count 3
      + (repeatCounts pd).count 4 + (repeatCounts pd).count 5
      + (repeatCounts pd).count 6 = pd.length - 1 := by
    rw [count_sum_of_lt_seven (repeatCounts pd) (repeatCounts_lt_seven pd)]
    exact repeatCounts_length pd
  rw [hrange]
  simp only [List.map_cons, List.map_nil, List.sum_cons, List.sum_nil, add_zero,
    div_add_div_same]
  rw [div_eq_one_iff_eq hd]
  have hsum2 : (repeatCounts pd).count 0 + ((repeatCounts pd).count 1
      + ((repeatCounts pd).count 2 + ((repeatCounts pd).count 3
      + ((repeatCounts pd).count 4 + ((repeatCounts pd).count 5
      + (repeatCounts pd).count 6))))) = pd.length - 1 := by omega
  exact_mod_cast hsum2

/-- Witness for C6 at a concrete input: the two-record window
[recNew, recMid] has one adjacent pair and its repeat distribution sums
to 1. -/
theorem C6_witness :
    2 ≤ ([recNew, recMid] : List DoubleBallRecord).length ∧
    ((windowRepeatStats [recNew, recMid]).repeat_distribution
        = (List.range 7).map (fun c =>
            (c, ((repeatCounts [recNew, recMid]).count c : ℚ)
              / (([recNew, recMid].length - 1 : Nat) : ℚ))) ∧
      ((windowRepeatStats [recNew, recMid]).repeat_distribution.map Prod.snd).sum
        = 1) :=
  ⟨by decide, C6_distribution_sums_to_one [recNew, recMid] (by decide)⟩

end Claims5

/-! ### Helper lemmas for the consistency analysis -/

theorem count_filter_nat (p : Nat → Bool) (a : Nat) (l : List Nat) :
    (l.filter p).count a = if p a = true then l.count a else 0 := by
  by_cases h : p a = true
  · rw [if_pos h, List.count_filter h]
  · rw [if_neg h]
    refine List.count_eq_zero.mpr ?_
    intro hmem
    exact h (List.mem_filter.mp hmem).2

section Claims6

/-- C10: whenever cross-window consistency is computed over at least two
windows, the four verdict groups — consistently hot, consistently warm,
consistently cold and varying — contain every main number 1..33 exactly once
and nothing outside the range; the cold default is what makes this hold: a
ball absent from a window's hot and warm lists is assigned the cold tier in
that window, even when that window's classification lists are empty. -/
theorem C10_verdicts_partition (ws : List WindowCls) (hws : 2 ≤ ws.length)
    (c : Consistency) (hc : crossWindowConsistency ws = some c) :
    (∀ b ∈ ballRange,
      (c.consistent_hot ++ c.consistent_warm ++ c.consistent_cold
        ++ c.varying).count b = 1) ∧
    (∀ b ∈ c.consistent_hot ++ c.consistent_warm ++ c.consistent_cold
        ++ c.varying, b ∈ ballRange) ∧
    (∀ (w : WindowCls) (ball : Nat), ball ∉ w.hot → ball ∉ w.warm →
      statusIn w ball = Heat.cold) := by
  have hlt : ¬ ws.length < 2 := by omega
  rw [crossWindowConsistency, if_neg hlt, Option.some.injEq] at hc
  subst hc
  refine ⟨?_, ?_, ?_⟩
  · intro b hb
    have h1 : ballRange.count b = 1 := count_ballRange_of_mem hb
    simp only [List.count_append, count_filter_nat]
    cases hall : allSameStatus (statusesOf ws b) with
    | false => simp [hall, h1]
    | true =>
        cases hh : headHeat (statusesOf ws b) with
        | hot => simp [hall, hh, h1]
        | warm => simp [hall, hh, h1]
        | cold => simp [hall, hh, h1]
  · intro b hb
    rcases List.mem_append.mp hb with hb2 | hb4
    · rcases List.mem_append.mp hb2 with hb3 | hb3
      · rcases List.mem_append.mp hb3 with hb5 | hb5
        · exact (List.mem_filter.mp hb5).1
        · exact (List.mem_filter.mp hb5).1
      · exact (List.mem_filter.mp hb3).1
    · exact (List.mem_filter.mp hb4).1
  · intro w ball h1 h2
    rw [statusIn, if_neg h1, if_neg h2]

/-- A standard single-window classification used by the C10 witness: hot
1..11, warm 12..22, cold 23..33. -/
def stdWindow : WindowCls :=
  { hot := List.range' 1 11, warm := List.range' 12 11, cold := List.range' 23 11 }

/-- Two identical windows, the smallest input the consistency analysis
accepts. -/
def wsPair : List WindowCls := [stdWindow, stdWindow]

/-- The consistency verdicts for wsPair: every ball keeps its tier, nothing
varies. -/
def consPair : Consistency :=
  { consistent_hot := List.range' 1 11
    consistent_warm := List.range' 12 11
    consistent_cold := List.range' 23 11
    varying := [] }

/-- Witness for C10 at a concrete input: over the two identical windows of
wsPair the analysis returns consPair, whose verdict groups cover 1..33
exactly once. -/
theorem C10_witness :
    2 ≤ wsPair.length ∧
    crossWindowConsistency wsPair = some consPair ∧
    ((∀ b ∈ ballRange,
        (consPair.consistent_hot ++ consPair.consistent_warm
          ++ consPair.consistent_cold ++ consPair.varying).count b = 1) ∧
      (∀ b ∈ consPair.consistent_hot ++ consPair.consistent_warm
          ++ consPair.consistent_cold ++ consPair.varying, b ∈ ballRange) ∧
      (∀ (w : WindowCls) (ball : Nat), ball ∉ w.hot → ball ∉ w.warm →
        statusIn w ball = Heat.cold)) :=
  ⟨by decide, by decide,
    C10_verdicts_partition wsPair (by decide) consPair (by decide)⟩

end Claims6

end DoubleBall
